import Mathlib

/-!
Shallow embedding of the Solana/Anchor multisig program
(`src/Codigo Dev Quest/Script.rs`) and proofs about its four handlers:
`initialize_wallet`, `create_proposal`, `approve_proposal`,
`execute_proposal`.

Modelling conventions:
* `Pubkey` is modelled as `Nat` (an abstract identity key; only equality
  is ever used by the program).
* Rust `u64` values are modelled as `Nat`; the single place where
  overflow matters (`wallet.proposal_count += 1`, an unchecked release-mode
  addition) is modelled with an explicit `% 2 ^ 64`.
* Each Anchor handler becomes a pure function returning `Except`
  (mirroring `require!` early returns) or, for `execute_proposal`, a
  triple exposing the raw in-handler account mutations and the ordered
  trace of its effects, since that handler writes `executed = true`
  before the CPI (`invoke_signed`) whose failure propagates via `?`.
* The Solana runtime commits a transaction's account writes atomically:
  a failed instruction reverts every write.  That substrate behaviour is
  external to the program; the `...Observed` wrappers model it.
-/

namespace Multisig

/-- Identity keys: the program only ever compares them for equality. -/
abbrev Pubkey := Nat

/-- Modulus of the Rust `u64` type used for `proposal_count` / `index`. -/
def U64MOD : Nat := 2 ^ 64

/-- Mirrors `anchor_lang::solana_program::instruction::AccountMeta`. -/
structure AccountMeta where
  pubkey : Pubkey
  isWritable : Bool
  mustSign : Bool
deriving DecidableEq, Repr

/-- Mirrors `anchor_lang::solana_program::instruction::Instruction`:
the stored action descriptor of a proposal. -/
structure Instruction where
  program_id : Pubkey
  accounts : List AccountMeta
  data : List Nat
deriving DecidableEq, Repr

/-- Mirrors the `MultiSigWallet` account struct (Script.rs lines 244-250). -/
structure MultiSigWallet where
  signers : List Pubkey
  threshold : Nat
  proposal_count : Nat
  bump : Nat
deriving DecidableEq, Repr

/-- Mirrors the `TransactionProposal` account struct (Script.rs lines 252-261). -/
structure TransactionProposal where
  multi_sig : Pubkey
  proposer : Pubkey
  index : Nat
  instruction : Instruction
  approvals : List Pubkey
  executed : Bool
  bump : Nat
deriving DecidableEq, Repr

/-- Mirrors the `MultiSigError` enum (Script.rs lines 300-314). -/
inductive MultiSigError where
  | ThresholdTooHigh
  | InvalidSigner
  | AlreadyExecuted
  | AlreadyApproved
  | NotEnoughApprovals
  | DuplicateSigner
deriving DecidableEq, Repr

/-- Result type of `execute_proposal`: a `require!` failure carries one of
the program's own errors, while a failing `invoke_signed` CPI propagates
an arbitrary downstream error via `?` (modelled as `cpiFailed`). -/
inductive ExecError where
  | msErr (e : MultiSigError)
  | cpiFailed
deriving DecidableEq, Repr

/-- Ordered effects performed by the body of `execute_proposal`:
the `proposal.executed = true` store, then the `invoke_signed` CPI with
the stored instruction and the assembled account-info list. -/
inductive ExecAction where
  | setExecutedFlag
  | invokeDelegate (instr : Instruction) (accountInfos : List Pubkey)
deriving DecidableEq, Repr

/-- Handler `initialize_wallet` (Script.rs lines 17-46).  The duplicate
check collects the signers into a `BTreeSet` and compares its size with
the original length; the set size is the number of distinct elements,
i.e. `signers.dedup.length`. -/
def initialize_wallet (signers : List Pubkey) (threshold : Nat) (bump : Nat) :
    Except MultiSigError MultiSigWallet :=
  if ¬ (threshold ≤ signers.length) then
    .error .ThresholdTooHigh
  else if ¬ (signers.dedup.length = signers.length) then
    .error .DuplicateSigner
  else
    .ok ⟨signers, threshold, 0, bump⟩

/-- Handler `create_proposal` (Script.rs lines 49-86).  `walletKey` is
`wallet.key()`; the handler stores the action descriptor, auto-approves
the proposer, does the unchecked `wallet.proposal_count += 1` (wrapping
`u64` addition) and then stores `proposal.index = wallet.proposal_count`. -/
def create_proposal (wallet : MultiSigWallet) (walletKey : Pubkey)
    (proposer : Pubkey) (instruction_data : List Nat)
    (instruction_program_id : Pubkey) (instruction_accounts : List AccountMeta)
    (proposalBump : Nat) :
    Except MultiSigError (MultiSigWallet × TransactionProposal) :=
  if ¬ (proposer ∈ wallet.signers) then
    .error .InvalidSigner
  else
    let instr : Instruction :=
      ⟨instruction_program_id, instruction_accounts, instruction_data⟩
    let newCount : Nat := (wallet.proposal_count + 1) % U64MOD
    .ok ({ wallet with proposal_count := newCount },
         ⟨walletKey, proposer, newCount, instr, [proposer], false, proposalBump⟩)

/-- Handler `approve_proposal` (Script.rs lines 89-113).  The wallet
account is declared without `mut` in the `ApproveProposal` context, so
only the proposal can change. -/
def approve_proposal (wallet : MultiSigWallet) (proposal : TransactionProposal)
    (approver : Pubkey) : Except MultiSigError TransactionProposal :=
  if ¬ (approver ∈ wallet.signers) then
    .error .InvalidSigner
  else if proposal.executed then
    .error .AlreadyExecuted
  else if approver ∈ proposal.approvals then
    .error .AlreadyApproved
  else
    .ok { proposal with approvals := proposal.approvals ++ [approver] }

/-- Handler `execute_proposal` (Script.rs lines 116-150).  Returns the
handler's result, the proposal account as the handler itself left it
(before any substrate-level revert), and the ordered trace of effects.
`delegateOk` is the outcome of the `invoke_signed` CPI; `executor` is the
`executor` signer account of the `ExecuteProposal` context, which the
handler body never reads. -/
def execute_proposal (wallet : MultiSigWallet) (proposal : TransactionProposal)
    (executor : Pubkey) (instructionProgram : Pubkey)
    (remainingAccounts : List Pubkey) (delegateOk : Bool) :
    Except ExecError Unit × TransactionProposal × List ExecAction :=
  if proposal.executed then
    (.error (.msErr .AlreadyExecuted), proposal, [])
  else if ¬ (wallet.threshold ≤ proposal.approvals.length) then
    (.error (.msErr .NotEnoughApprovals), proposal, [])
  else
    let p : TransactionProposal := { proposal with executed := true }
    let accountInfos : List Pubkey := instructionProgram :: remainingAccounts
    let tr : List ExecAction :=
      [ExecAction.setExecutedFlag,
       ExecAction.invokeDelegate proposal.instruction accountInfos]
    if delegateOk then (.ok (), p, tr) else (.error .cpiFailed, p, tr)

/-- Committed wallet/proposal records after `create_proposal`, as the
substrate leaves them: on any handler error the transaction is reverted,
so the wallet is unchanged and no proposal record exists. -/
def createObserved (wallet : MultiSigWallet) (walletKey : Pubkey)
    (proposer : Pubkey) (instruction_data : List Nat)
    (instruction_program_id : Pubkey) (instruction_accounts : List AccountMeta)
    (proposalBump : Nat) : MultiSigWallet × Option TransactionProposal :=
  match create_proposal wallet walletKey proposer instruction_data
      instruction_program_id instruction_accounts proposalBump with
  | .ok (w, p) => (w, some p)
  | .error _ => (wallet, none)

/-- Committed proposal record after `approve_proposal`: reverted to the
pre-call record on any error. -/
def approveObserved (wallet : MultiSigWallet) (proposal : TransactionProposal)
    (approver : Pubkey) : TransactionProposal :=
  match approve_proposal wallet proposal approver with
  | .ok p => p
  | .error _ => proposal

/-- Committed proposal record after `execute_proposal`: the substrate's
all-or-nothing commit reverts every account write of a failed
transaction, including the `executed = true` store when the CPI fails. -/
def executeObserved (wallet : MultiSigWallet) (proposal : TransactionProposal)
    (executor : Pubkey) (instructionProgram : Pubkey)
    (remainingAccounts : List Pubkey) (delegateOk : Bool) :
    TransactionProposal :=
  match execute_proposal wallet proposal executor instructionProgram
      remainingAccounts delegateOk with
  | (.ok _, p, _) => p
  | (.error _, _, _) => proposal

/-- Little-endian byte encoding of a `u64`, mirroring `to_le_bytes()`. -/
def u64LeBytes (n : Nat) : List Nat :=
  [n % 256, n / 2 ^ 8 % 256, n / 2 ^ 16 % 256, n / 2 ^ 24 % 256,
   n / 2 ^ 32 % 256, n / 2 ^ 40 % 256, n / 2 ^ 48 % 256, n / 2 ^ 56 % 256]

/-- The seed tuple of a proposal PDA: a domain-tag byte literal, the
wallet's key, and eight little-endian index bytes. -/
structure PdaSeeds where
  domainTag : String
  walletKey : Pubkey
  indexBytes : List Nat
deriving DecidableEq, Repr

/-- Seeds used by the `CreateProposal` context (Script.rs line 188) when
the proposal account is created: `[b"proposal", wallet.key(),
wallet.proposal_count.to_le_bytes()]`, evaluated against the wallet
record as it stands on entry, i.e. before the handler's increment. -/
def createProposalSeeds (wallet : MultiSigWallet) (walletKey : Pubkey) :
    PdaSeeds :=
  ⟨"proposal", walletKey, u64LeBytes wallet.proposal_count⟩

/-- Seeds used by the `ApproveProposal` and `ExecuteProposal` contexts
(Script.rs lines 210 and 230) to re-locate a proposal record:
`[b"proposal", wallet.key(), proposal.index.to_le_bytes()]`. -/
def proposalLookupSeeds (walletKey : Pubkey)
    (proposal : TransactionProposal) : PdaSeeds :=
  ⟨"proposal", walletKey, u64LeBytes proposal.index⟩

/-- One post-creation operation touching a wallet, with all its handler
arguments.  `approve_proposal` and `execute_proposal` declare the wallet
account read-only (no `mut` in their contexts), so only `create_proposal`
can write the wallet record at all. -/
inductive WalletOp where
  | createOp (walletKey proposer : Pubkey) (data : List Nat)
      (pid : Pubkey) (accs : List AccountMeta) (bump : Nat)
  | approveOp (proposal : TransactionProposal) (approver : Pubkey)
  | executeOp (proposal : TransactionProposal)
      (executor instructionProgram : Pubkey)
      (remainingAccounts : List Pubkey) (delegateOk : Bool)

/-- Committed wallet record after one operation. -/
def walletAfter (wallet : MultiSigWallet) : WalletOp → MultiSigWallet
  | .createOp wk proposer d pid accs b =>
      match create_proposal wallet wk proposer d pid accs b with
      | .ok (w, _) => w
      | .error _ => wallet
  | .approveOp _ _ => wallet
  | .executeOp _ _ _ _ _ => wallet

/-- A duplicate-free list is exactly one whose dedup has the same length,
which is how `initialize_wallet`'s `BTreeSet` check works. -/
theorem dedup_length_eq_iff_nodup (l : List Pubkey) :
    l.dedup.length = l.length ↔ l.Nodup := by
  constructor
  · intro h
    exact List.dedup_eq_self.mp ((l.dedup_sublist).eq_of_length h)
  · intro h
    rw [List.dedup_eq_self.mpr h]

/-- C1: `execute_proposal` fails with `AlreadyExecuted` whenever the
proposal is already executed, fails with `NotEnoughApprovals` whenever it
is not executed but has fewer approvals than the wallet's threshold
(leaving `executed` false and performing no effect), and otherwise sets
`executed = true` first and only then invokes the delegate with the
stored action descriptor, whatever the CPI outcome. -/
theorem execute_proposal_spec (wallet : MultiSigWallet)
    (p : TransactionProposal) (executor ip : Pubkey) (rem : List Pubkey)
    (dOk : Bool) :
    (p.executed = true →
      execute_proposal wallet p executor ip rem dOk
        = (.error (.msErr .AlreadyExecuted), p, [])) ∧
    (p.executed = false → p.approvals.length < wallet.threshold →
      execute_proposal wallet p executor ip rem dOk
        = (.error (.msErr .NotEnoughApprovals), p, [])) ∧
    (p.executed = false → wallet.threshold ≤ p.approvals.length →
      execute_proposal wallet p executor ip rem dOk
        = ((if dOk then .ok () else .error .cpiFailed),
           { p with executed := true },
           [ExecAction.setExecutedFlag,
            ExecAction.invokeDelegate p.instruction (ip :: rem)])) := by
  refine ⟨fun h => ?_, fun h h2 => ?_, fun h h2 => ?_⟩
  · simp [execute_proposal, h]
  · simp [execute_proposal, h, Nat.not_le.mpr h2]
  · simp only [execute_proposal, h, Bool.false_eq_true, if_false, h2,
      not_true_eq_false]
    cases dOk <;> simp

/-- C1 witness: a concrete quorum-failure run of `execute_proposal`. -/
theorem execute_proposal_spec_witness :
    execute_proposal ⟨[1, 2], 2, 1, 0⟩ ⟨7, 1, 1, ⟨9, [], []⟩, [1], false, 0⟩
        3 9 [] true
      = (.error (.msErr .NotEnoughApprovals),
         ⟨7, 1, 1, ⟨9, [], []⟩, [1], false, 0⟩, []) :=
  (execute_proposal_spec ⟨[1, 2], 2, 1, 0⟩
      ⟨7, 1, 1, ⟨9, [], []⟩, [1], false, 0⟩ 3 9 [] true).2.1
    (by decide) (by decide)

/-- C6: `approve_proposal` checks membership in `wallet.signers` first
(`InvalidSigner`), then the executed flag (`AlreadyExecuted`), then
prior approval (`AlreadyApproved`, leaving the approvals length
unchanged), and on success appends the approver at the end. -/
theorem approve_proposal_spec (wallet : MultiSigWallet)
    (p : TransactionProposal) (a : Pubkey) :
    (a ∉ wallet.signers →
      approve_proposal wallet p a = .error .InvalidSigner) ∧
    (a ∈ wallet.signers → p.executed = true →
      approve_proposal wallet p a = .error .AlreadyExecuted) ∧
    (a ∈ wallet.signers → p.executed = false → a ∈ p.approvals →
      approve_proposal wallet p a = .error .AlreadyApproved ∧
        (approveObserved wallet p a).approvals.length
          = p.approvals.length) ∧
    (a ∈ wallet.signers → p.executed = false → a ∉ p.approvals →
      approve_proposal wallet p a
        = .ok { p with approvals := p.approvals ++ [a] }) := by
  refine ⟨fun h => ?_, fun h h2 => ?_, fun h h2 h3 => ?_, fun h h2 h3 => ?_⟩
  · simp [approve_proposal, h]
  · simp [approve_proposal, h, h2]
  · have he : approve_proposal wallet p a = .error .AlreadyApproved := by
      simp [approve_proposal, h, h2, h3]
    exact ⟨he, by simp [approveObserved, he]⟩
  · simp [approve_proposal, h, h2, h3]

/-- C6 witness: a concrete repeated approval fails `AlreadyApproved`
with the approvals length unchanged. -/
theorem approve_proposal_spec_witness :
    approve_proposal ⟨[1, 2], 2, 1, 0⟩ ⟨7, 1, 1, ⟨9, [], []⟩, [1], false, 0⟩ 1
        = .error .AlreadyApproved ∧
      (approveObserved ⟨[1, 2], 2, 1, 0⟩
          ⟨7, 1, 1, ⟨9, [], []⟩, [1], false, 0⟩ 1).approvals.length = 1 :=
  (approve_proposal_spec ⟨[1, 2], 2, 1, 0⟩
      ⟨7, 1, 1, ⟨9, [], []⟩, [1], false, 0⟩ 1).2.2.1
    (by decide) (by decide) (by decide)

/-- C9: the outcome of `execute_proposal` — result, proposal record and
effect trace alike — does not depend on which executor triggered it; the
handler never reads the `executor` account. -/
theorem execute_proposal_executor_irrelevant (wallet : MultiSigWallet)
    (p : TransactionProposal) (x y ip : Pubkey) (rem : List Pubkey)
    (dOk : Bool) :
    execute_proposal wallet p x ip rem dOk
      = execute_proposal wallet p y ip rem dOk := rfl

/-- C2: the executed flag is one-way.  Once a proposal is executed, an
`approve_proposal` by a wallet signer and any `execute_proposal` both
fail with `AlreadyExecuted` and leave the committed record unchanged
(a non-signer's approval fails even earlier, with `InvalidSigner`, and
also leaves it unchanged); `approve_proposal` never modifies the flag at
all, and no committed transition ever turns `executed` from `true` back
to `false`. -/
theorem executed_flag_one_way (wallet : MultiSigWallet)
    (p : TransactionProposal) (a executor ip : Pubkey) (rem : List Pubkey)
    (dOk : Bool) :
    (p.executed = true → a ∈ wallet.signers →
      approve_proposal wallet p a = .error .AlreadyExecuted) ∧
    (p.executed = true → approveObserved wallet p a = p) ∧
    (p.executed = true →
      execute_proposal wallet p executor ip rem dOk
          = (.error (.msErr .AlreadyExecuted), p, []) ∧
        executeObserved wallet p executor ip rem dOk = p) ∧
    ((approveObserved wallet p a).executed = p.executed) ∧
    (p.executed = true →
      (executeObserved wallet p executor ip rem dOk).executed = true) := by
  have hobs : ∀ hp : p.executed = true, approveObserved wallet p a = p := by
    intro hp
    by_cases hs : a ∈ wallet.signers
    · simp [approveObserved, approve_proposal, hs, hp]
    · simp [approveObserved, approve_proposal, hs]
  have hex : ∀ hp : p.executed = true,
      execute_proposal wallet p executor ip rem dOk
        = (.error (.msErr .AlreadyExecuted), p, []) := by
    intro hp
    simp [execute_proposal, hp]
  refine ⟨fun hp hs => ?_, hobs, fun hp => ⟨hex hp, ?_⟩, ?_, fun hp => ?_⟩
  · simp [approve_proposal, hs, hp]
  · simp [executeObserved, hex hp]
  · by_cases hp : p.executed
    · rw [hobs hp]
    · by_cases hs : a ∈ wallet.signers
      · by_cases ha : a ∈ p.approvals
        · simp [approveObserved, approve_proposal, hs, hp, ha]
        · simp [approveObserved, approve_proposal, hs, hp, ha]
      · simp [approveObserved, approve_proposal, hs]
  · simp [executeObserved, hex hp, hp]

/-- C2 witness: on a concrete executed proposal, a signer's approval and
an execution both fail `AlreadyExecuted` and nothing changes. -/
theorem executed_flag_one_way_witness :
    approve_proposal ⟨[1, 2], 2, 1, 0⟩ ⟨7, 1, 1, ⟨9, [], []⟩, [1, 2], true, 0⟩ 2
        = .error .AlreadyExecuted ∧
      executeObserved ⟨[1, 2], 2, 1, 0⟩
          ⟨7, 1, 1, ⟨9, [], []⟩, [1, 2], true, 0⟩ 3 9 [] true
        = ⟨7, 1, 1, ⟨9, [], []⟩, [1, 2], true, 0⟩ :=
  ⟨(executed_flag_one_way ⟨[1, 2], 2, 1, 0⟩
      ⟨7, 1, 1, ⟨9, [], []⟩, [1, 2], true, 0⟩ 2 3 9 [] true).1
        (by decide) (by decide),
   ((executed_flag_one_way ⟨[1, 2], 2, 1, 0⟩
      ⟨7, 1, 1, ⟨9, [], []⟩, [1, 2], true, 0⟩ 2 3 9 [] true).2.2.1
        (by decide)).2⟩

/-- C3 counterexample: `initialize_wallet` never checks `threshold ≥ 1`.
A call with two distinct signers and `threshold = 0` succeeds and creates
a wallet whose threshold violates `1 ≤ threshold`. -/
theorem initialize_wallet_zero_threshold :
    initialize_wallet [1, 2] 0 5 = .ok ⟨[1, 2], 0, 0, 5⟩ ∧
      ¬ (1 ≤ (0 : Nat)) := by
  exact ⟨rfl, by decide⟩

/-- C3 amended: every wallet created by `initialize_wallet` satisfies
`threshold ≤ len(signers)` with pairwise-distinct signers (but
`threshold ≥ 1` is not enforced); `threshold > len(signers)` fails with
`ThresholdTooHigh` (the spec's `ThresholdInvalid`), a duplicated signer
fails with `DuplicateSigner`, and either failure creates no wallet. -/
theorem initialize_wallet_spec (signers : List Pubkey)
    (threshold bump : Nat) :
    (∀ w, initialize_wallet signers threshold bump = .ok w →
      w.threshold ≤ w.signers.length ∧ w.signers.Nodup ∧
        w.signers = signers ∧ w.threshold = threshold ∧
        w.proposal_count = 0) ∧
    (signers.length < threshold →
      initialize_wallet signers threshold bump
        = .error .ThresholdTooHigh) ∧
    (threshold ≤ signers.length → ¬ signers.Nodup →
      initialize_wallet signers threshold bump
        = .error .DuplicateSigner) := by
  refine ⟨fun w hw => ?_, fun h => ?_, fun h h2 => ?_⟩
  · by_cases ht : threshold ≤ signers.length
    · by_cases hd : signers.dedup.length = signers.length
      · simp only [initialize_wallet, ht, not_true_eq_false, if_false, hd,
          Except.ok.injEq] at hw
        subst hw
        exact ⟨ht, (dedup_length_eq_iff_nodup signers).mp hd, rfl, rfl, rfl⟩
      · simp [initialize_wallet, ht, hd] at hw
    · simp [initialize_wallet, ht] at hw
  · simp [initialize_wallet, Nat.not_le.mpr h]
  · have hd : ¬ signers.dedup.length = signers.length := fun hc =>
      h2 ((dedup_length_eq_iff_nodup signers).mp hc)
    simp [initialize_wallet, h, hd]

/-- C3 witness: a concrete duplicate-signer call fails `DuplicateSigner`. -/
theorem initialize_wallet_spec_witness :
    initialize_wallet [1, 1, 2] 1 0 = .error .DuplicateSigner :=
  (initialize_wallet_spec [1, 1, 2] 1 0).2.2 (by decide) (by decide)

/-- C4: the seeds the `CreateProposal` context uses to create a proposal
record are built from `wallet.proposal_count` as it stands before the
handler's increment, while the proposal is stored with
`index = proposal_count + 1` and the `ApproveProposal` /
`ExecuteProposal` contexts re-derive the record's address from
`proposal.index`.  On a fresh wallet the creation seed encodes 0 but the
lookup seed encodes 1, so the re-derived address can never match the
address the record was created at — contradicting the repository's own
test, which expects the first proposal at seed index 1. -/
theorem proposal_seed_mismatch :
    create_proposal ⟨[1, 2], 2, 0, 3⟩ 7 1 [42] 9 [] 4
        = .ok (⟨[1, 2], 2, 1, 3⟩,
               ⟨7, 1, 1, ⟨9, [], [42]⟩, [1], false, 4⟩) ∧
      createProposalSeeds ⟨[1, 2], 2, 0, 3⟩ 7
        = ⟨"proposal", 7, u64LeBytes 0⟩ ∧
      proposalLookupSeeds 7 ⟨7, 1, 1, ⟨9, [], [42]⟩, [1], false, 4⟩
        = ⟨"proposal", 7, u64LeBytes 1⟩ ∧
      createProposalSeeds ⟨[1, 2], 2, 0, 3⟩ 7
        ≠ proposalLookupSeeds 7 ⟨7, 1, 1, ⟨9, [], [42]⟩, [1], false, 4⟩ := by
  exact ⟨rfl, rfl, rfl, by decide⟩

/-- C5 counterexample: at `proposal_count = 2 ^ 64 - 1` the unchecked
`u64` increment wraps, so a successful `create_proposal` stores
`index = 0`, not `proposal_count + 1`. -/
theorem create_proposal_index_wraps :
    create_proposal ⟨[1], 1, 2 ^ 64 - 1, 0⟩ 5 1 [] 2 [] 0
        = .ok (⟨[1], 1, 0, 0⟩, ⟨5, 1, 0, ⟨2, [], []⟩, [1], false, 0⟩) ∧
      (0 : Nat) ≠ (2 ^ 64 - 1) + 1 := by
  exact ⟨rfl, by decide⟩

/-- C5 amended: a `create_proposal` by a wallet signer `P` succeeds and
yields a proposal with `index = (proposal_count + 1) mod 2 ^ 64` — equal
to `proposal_count + 1` whenever `proposal_count < 2 ^ 64 - 1` —
`approvals = [P]`, `executed = false`, and the wallet's count advanced
to exactly that index; a caller not in `wallet.signers` fails with
`InvalidSigner`. -/
theorem create_proposal_spec (wallet : MultiSigWallet)
    (walletKey proposer pid : Pubkey) (data : List Nat)
    (accs : List AccountMeta) (bump : Nat) :
    (proposer ∈ wallet.signers →
      create_proposal wallet walletKey proposer data pid accs bump
        = .ok ({ wallet with
                   proposal_count := (wallet.proposal_count + 1) % U64MOD },
               ⟨walletKey, proposer, (wallet.proposal_count + 1) % U64MOD,
                ⟨pid, accs, data⟩, [proposer], false, bump⟩)) ∧
    (wallet.proposal_count < 2 ^ 64 - 1 →
      (wallet.proposal_count + 1) % U64MOD = wallet.proposal_count + 1) ∧
    (proposer ∉ wallet.signers →
      create_proposal wallet walletKey proposer data pid accs bump
        = .error .InvalidSigner) := by
  refine ⟨fun h => ?_, fun h => ?_, fun h => ?_⟩
  · simp [create_proposal, h]
  · exact Nat.mod_eq_of_lt (by unfold U64MOD; omega)
  · simp [create_proposal, h]

/-- C5 witness: a concrete creation by signer 1 on a fresh wallet yields
`index = 1`, `approvals = [1]`, `executed = false`, and count 1. -/
theorem create_proposal_spec_witness :
    create_proposal ⟨[1, 2, 3], 2, 0, 0⟩ 7 1 [42] 9 [] 4
      = .ok (⟨[1, 2, 3], 2, 1, 0⟩,
             ⟨7, 1, 1, ⟨9, [], [42]⟩, [1], false, 4⟩) := by
  have h := (create_proposal_spec ⟨[1, 2, 3], 2, 0, 0⟩ 7 1 9 [42] [] 4).1
    (by decide)
  simpa [U64MOD] using h

/-- C7: failure atomicity.  Whenever a handler returns an error, the
committed records are exactly the pre-call ones: a failed
`initialize_wallet` creates no wallet, a failed `create_proposal` leaves
the wallet untouched and creates no proposal, a failed
`approve_proposal` leaves the proposal untouched, and a failed
`execute_proposal` leaves the committed proposal untouched — its
precondition failures do not even mutate the raw in-handler record, and
the CPI-failure write of `executed` is reverted by the substrate's
all-or-nothing commit. -/
theorem failure_atomicity (signers : List Pubkey) (threshold ibump : Nat)
    (wallet : MultiSigWallet) (walletKey proposer pid : Pubkey)
    (data : List Nat) (accs : List AccountMeta) (pbump : Nat)
    (p : TransactionProposal) (a executor ip : Pubkey) (rem : List Pubkey)
    (dOk : Bool) :
    (∀ e, initialize_wallet signers threshold ibump = .error e →
      (initialize_wallet signers threshold ibump).toOption = none) ∧
    (∀ e, create_proposal wallet walletKey proposer data pid accs pbump
        = .error e →
      createObserved wallet walletKey proposer data pid accs pbump
        = (wallet, none)) ∧
    (∀ e, approve_proposal wallet p a = .error e →
      approveObserved wallet p a = p) ∧
    (∀ e p2 tr, execute_proposal wallet p executor ip rem dOk
        = (.error e, p2, tr) →
      executeObserved wallet p executor ip rem dOk = p ∧
        (e ≠ .cpiFailed → p2 = p)) := by
  refine ⟨fun e h => ?_, fun e h => ?_, fun e h => ?_,
    fun e p2 tr h => ⟨by simp [executeObserved, h], fun hne => ?_⟩⟩
  · rw [h]; rfl
  · simp [createObserved, h]
  · simp [approveObserved, h]
  · by_cases hp : p.executed = true
    · simp only [execute_proposal, hp, if_true, Prod.mk.injEq] at h
      exact h.2.1.symm
    · rw [Bool.not_eq_true] at hp
      by_cases hq : wallet.threshold ≤ p.approvals.length
      · cases dOk with
        | true => simp [execute_proposal, hp, hq] at h
        | false =>
            simp only [execute_proposal, hp, Bool.false_eq_true, if_false,
              hq, not_true_eq_false, if_true, Prod.mk.injEq,
              Except.error.injEq] at h
            exact absurd h.1.symm hne
      · simp only [execute_proposal, hp, Bool.false_eq_true, if_false, hq,
          not_false_eq_true, if_true, Prod.mk.injEq] at h
        exact h.2.1.symm

/-- C7 witness: a concrete failed approval (already-executed proposal)
commits no change to the proposal record. -/
theorem failure_atomicity_witness :
    approveObserved ⟨[1], 1, 0, 0⟩ ⟨7, 1, 1, ⟨9, [], []⟩, [1], true, 0⟩ 1
      = ⟨7, 1, 1, ⟨9, [], []⟩, [1], true, 0⟩ :=
  (failure_atomicity [1] 1 0 ⟨[1], 1, 0, 0⟩ 5 1 2 [] [] 0
      ⟨7, 1, 1, ⟨9, [], []⟩, [1], true, 0⟩ 1 3 9 [] true).2.2.1
    .AlreadyExecuted rfl

/-- Single-step frame lemma for the wallet record: no operation changes
`signers` or `threshold`, since `create_proposal` only rewrites
`proposal_count` and the other two handlers hold the wallet account
read-only. -/
theorem walletAfter_fields (wallet : MultiSigWallet) (op : WalletOp) :
    (walletAfter wallet op).signers = wallet.signers ∧
    (walletAfter wallet op).threshold = wallet.threshold := by
  cases op with
  | createOp wk proposer d pid accs b =>
      by_cases h : proposer ∈ wallet.signers
      · simp [walletAfter, create_proposal, h]
      · simp [walletAfter, create_proposal, h]
  | approveOp p a => exact ⟨rfl, rfl⟩
  | executeOp p x ip rem dOk => exact ⟨rfl, rfl⟩

/-- C8: after any sequence of post-creation operations, the wallet's
`signers` and `threshold` are those it was created with; moreover
`approve_proposal` and `execute_proposal` leave the entire wallet record
(including `proposal_count`) unchanged. -/
theorem wallet_config_immutable (wallet : MultiSigWallet)
    (ops : List WalletOp) :
    ((ops.foldl walletAfter wallet).signers = wallet.signers ∧
      (ops.foldl walletAfter wallet).threshold = wallet.threshold) ∧
    (∀ p a, walletAfter wallet (.approveOp p a) = wallet) ∧
    (∀ p x ip rem dOk,
      walletAfter wallet (.executeOp p x ip rem dOk) = wallet) := by
  refine ⟨?_, fun p a => rfl, fun p x ip rem dOk => rfl⟩
  induction ops generalizing wallet with
  | nil => exact ⟨rfl, rfl⟩
  | cons op rest ih =>
      have h1 := walletAfter_fields wallet op
      have h2 := ih (walletAfter wallet op)
      simp only [List.foldl_cons]
      exact ⟨h2.1.trans h1.1, h2.2.trans h1.2⟩

/-- C10: `create_proposal` advances `proposal_count` with an unchecked
wrapping `u64` addition: every successful creation stores
`count + 1 mod 2 ^ 64` as both the new count and the proposal's index,
which equals `count + 1` (strictly increasing, hence fresh) exactly
while `count < 2 ^ 64 - 1`, and wraps to `0` at `count = 2 ^ 64 - 1`. -/
theorem proposal_count_unchecked_increment (wallet : MultiSigWallet)
    (walletKey proposer pid : Pubkey) (data : List Nat)
    (accs : List AccountMeta) (bump : Nat) :
    (∀ w1 p, create_proposal wallet walletKey proposer data pid accs bump
        = .ok (w1, p) →
      w1.proposal_count = (wallet.proposal_count + 1) % 2 ^ 64 ∧
        p.index = w1.proposal_count) ∧
    (wallet.proposal_count < 2 ^ 64 - 1 →
      (wallet.proposal_count + 1) % 2 ^ 64 = wallet.proposal_count + 1 ∧
        wallet.proposal_count < (wallet.proposal_count + 1) % 2 ^ 64) ∧
    (wallet.proposal_count = 2 ^ 64 - 1 →
      (wallet.proposal_count + 1) % 2 ^ 64 = 0) := by
  refine ⟨fun w1 p h => ?_, fun h => ?_, fun h => ?_⟩
  · by_cases hs : proposer ∈ wallet.signers
    · simp only [create_proposal, hs, not_true_eq_false, if_false,
        Except.ok.injEq, Prod.mk.injEq] at h
      rw [← h.1, ← h.2]
      exact ⟨rfl, rfl⟩
    · simp [create_proposal, hs] at h
  · have hm : (wallet.proposal_count + 1) % 2 ^ 64
        = wallet.proposal_count + 1 := Nat.mod_eq_of_lt (by omega)
    exact ⟨hm, by omega⟩
  · rw [h]
    decide

/-- C10 witness: a concrete successful creation on a fresh wallet stores
count and index `(0 + 1) mod 2 ^ 64 = 1`. -/
theorem proposal_count_unchecked_increment_witness :
    (⟨[1], 1, 1, 0⟩ : MultiSigWallet).proposal_count = (0 + 1) % 2 ^ 64 ∧
      (⟨5, 1, 1, ⟨2, [], []⟩, [1], false, 0⟩ :
          TransactionProposal).index
        = (⟨[1], 1, 1, 0⟩ : MultiSigWallet).proposal_count :=
  (proposal_count_unchecked_increment ⟨[1], 1, 0, 0⟩ 5 1 2 [] [] 0).1
    ⟨[1], 1, 1, 0⟩ ⟨5, 1, 1, ⟨2, [], []⟩, [1], false, 0⟩ rfl

end Multisig
